import Mathlib

/-!
Verification of the wasmbox WebAssembly interpreter (`src/src/leb128.c`,
`src/src/wasmbox.c`, `src/src/interpreter.c`, `src/src/input-stream.c`)
against its natural-language specification.

Machine integers are modelled as `Nat` with explicit `% 2^w` wrapping where
the C code computes in a `w`-bit unsigned type, and as `Int` through the
two's-complement views `toS32` / `toS64` where the C code reads a signed
union member.  C operations whose behaviour is undefined (division by zero,
signed-overflow division, `__builtin_clz/ctz` on zero, out-of-bounds array
reads) are modelled as partial: the embedded step function yields no
successor state there.
-/

namespace Wasmbox

/-- Modulus of a 32-bit machine word (`wasm_u32_t`). -/
def U32 : Nat := 2 ^ 32

/-- Modulus of a 64-bit machine word (`wasm_u64_t`). -/
def U64 : Nat := 2 ^ 64

/-- Two's-complement reading of the low 32 bits of a cell, the `s32`
union member of `wasmbox_value_t`. -/
def toS32 (n : Nat) : Int :=
  if n % U32 < 2 ^ 31 then ((n % U32 : Nat) : Int) else ((n % U32 : Nat) : Int) - 2 ^ 32

/-- Two's-complement reading of a full 64-bit cell, the `s64` union member
of `wasmbox_value_t`. -/
def toS64 (n : Nat) : Int :=
  if n % U64 < 2 ^ 63 then ((n % U64 : Nat) : Int) else ((n % U64 : Nat) : Int) - 2 ^ 64

/-- Two's-complement 32-bit encoding of a signed value back into a word. -/
def ofS32 (i : Int) : Nat := (i % (2 ^ 32 : Int)).toNat

/-- Two's-complement 64-bit encoding of a signed value back into a word. -/
def ofS64 (i : Int) : Nat := (i % (2 ^ 64 : Int)).toNat

/-!  LEB128 decoding, from `src/src/leb128.c`.

Both decoders receive the bytes that start at the pointer `p` as a list,
together with the current stream index `*idx` and the stream length `len`;
they return the decoded value and the final index.  Reading past the end of
the byte list models a read past the caller's buffer and yields `none`.
-/

/-- Loop of `wasmbox_parse_unsigned_leb128`: while `*idx <= len`, read a
byte, advance `*idx`, or the low 7 bits shifted by `shift` into the 64-bit
accumulator, and stop once the continuation bit is clear. -/
def ulebLoop (len : Nat) : List Nat → Nat → Nat → Nat → Option (Nat × Nat)
  | bytes, idx, shift, acc =>
    if idx ≤ len then
      match bytes with
      | [] => none
      | v :: rest =>
        let acc2 := (acc ||| (((v % 256) % 128) <<< shift)) % U64
        if v % 256 < 128 then
          some (acc2, idx + 1)
        else
          ulebLoop len rest (idx + 1) (shift + 7) acc2
    else
      some (acc, idx)

/-- Embedding of `wasmbox_parse_unsigned_leb128 (p, idx, len)`: result value
and final value of `*idx`. -/
def parse_unsigned_leb128 (bytes : List Nat) (idx len : Nat) : Option (Nat × Nat) :=
  ulebLoop len bytes idx 0 0

/-- Loop of `wasmbox_parse_signed_leb128`: a do-while that always reads at
least one byte and continues while the continuation bit is set and
`*idx < len`.  Returns the raw 64-bit accumulator, the final index, the
final shift amount and the last byte read. -/
def slebLoop (len : Nat) : List Nat → Nat → Nat → Nat → Option (Nat × Nat × Nat × Nat)
  | [], _, _, _ => none
  | v :: rest, idx, shift, acc =>
    let acc2 := (acc ||| (((v % 256) % 128) <<< shift)) % U64
    let idx2 := idx + 1
    let shift2 := shift + 7
    if v % 256 ≥ 128 ∧ idx2 < len then
      slebLoop len rest idx2 shift2 acc2
    else
      some (acc2, idx2, shift2, v % 256)

/-- Value of the C expression `~0 << shift` in the sign-extension step of
`wasmbox_parse_signed_leb128`, as the 64-bit word it contributes once OR-ed
into the `wasm_s64_t` accumulator.  In the source `~0` has type `int`
(32 bits), so the shift is performed at 32-bit width and the 32-bit result
is sign-extended to 64 bits; the mathematical shift is wrapped to 32 bits,
so for `shift ≥ 32` the contribution is zero. -/
def signExtConst (shift : Nat) : Nat :=
  let e32 : Nat := (U32 - (2 ^ shift) % U32) % U32
  if e32 < 2 ^ 31 then e32 else U64 - U32 + e32

/-- Embedding of `wasmbox_parse_signed_leb128 (p, idx, len)`: signed result
and final value of `*idx`. -/
def parse_signed_leb128 (bytes : List Nat) (idx len : Nat) : Option (Int × Nat) :=
  match slebLoop len bytes idx 0 0 with
  | none => none
  | some (acc, idx2, shift, v) =>
    let r := if shift < 64 ∧ v / 64 % 2 = 1 then (acc ||| signExtConst shift) % U64 else acc
    some (toS64 r, idx2)

/-!  Standard LEB128 encoders.  The repository has no encoder; these are the
textbook minimal encodings used to state round-trip properties, bounded by a
fuel argument so that they evaluate by kernel reduction (fuel 16 covers
every 64-bit value). -/

/-- Standard unsigned LEB128 encoding (fuel-bounded). -/
def ulebEncodeF : Nat → Nat → List Nat
  | 0, _ => []
  | fuel + 1, n =>
    if n < 128 then [n] else (n % 128 + 128) :: ulebEncodeF fuel (n / 128)

/-- Standard unsigned LEB128 encoding of a 64-bit value. -/
def ulebEncode (n : Nat) : List Nat := ulebEncodeF 16 n

/-- Standard signed LEB128 encoding (fuel-bounded). -/
def slebEncodeF : Nat → Int → List Nat
  | 0, _ => []
  | fuel + 1, n =>
    if -64 ≤ n ∧ n < 64 then [(n % 128).toNat]
    else ((n % 128).toNat + 128) :: slebEncodeF fuel ((n - n % 128) / 128)

/-- Standard signed LEB128 encoding of a 64-bit value. -/
def slebEncode (n : Int) : List Nat := slebEncodeF 16 n

/-!  Helper bit-counting functions used by the runtime embeddings. -/

/-- Number of significant binary digits of a value (fuel-bounded so that it
evaluates by kernel reduction; fuel 64 covers every 64-bit value). -/
def bitlenF : Nat → Nat → Nat
  | 0, _ => 0
  | fuel + 1, v => if v = 0 then 0 else bitlenF fuel (v / 2) + 1

/-- Number of significant binary digits of a 64-bit value. -/
def bitlen (v : Nat) : Nat := bitlenF 64 v

/-- Index of the lowest set bit (fuel-bounded; meaningful for nonzero
arguments reached within the fuel). -/
def ctzF : Nat → Nat → Nat
  | 0, _ => 0
  | fuel + 1, v => if v % 2 = 1 then 0 else ctzF fuel (v / 2) + 1

/-!  Runtime helpers of `src/src/interpreter.c`.  The four count-zero
helpers wrap `__builtin_clz/ctz(l)`, whose result is undefined when the
argument is zero; that case is modelled as `none`. -/

/-- Embedding of `wasmbox_runtime_clz32` (`__builtin_clz`). -/
def wasmbox_runtime_clz32 (v : Nat) : Option Nat :=
  if v % U32 = 0 then none else some (32 - bitlen (v % U32))

/-- Embedding of `wasmbox_runtime_ctz32` (`__builtin_ctz`). -/
def wasmbox_runtime_ctz32 (v : Nat) : Option Nat :=
  if v % U32 = 0 then none else some (ctzF 32 (v % U32))

/-- Embedding of `wasmbox_runtime_clz64` (`__builtin_clzl`). -/
def wasmbox_runtime_clz64 (v : Nat) : Option Nat :=
  if v % U64 = 0 then none else some (64 - bitlen (v % U64))

/-- Embedding of `wasmbox_runtime_ctz64` (`__builtin_ctzl`). -/
def wasmbox_runtime_ctz64 (v : Nat) : Option Nat :=
  if v % U64 = 0 then none else some (ctzF 64 (v % U64))

/-!  C integer division and remainder are partial: the divisor-zero and
signed-overflow cases are undefined behaviour (C17 6.5.5), so they are
modelled as `none`; otherwise C `/` and `%` truncate toward zero
(`Int.tdiv` / `Int.tmod`). -/

/-- Signed `w`-bit C division: `a / b` on `wasm_s{w}_t` values. -/
def cdivS (w : Nat) (a b : Int) : Option Int :=
  if b = 0 ∨ (a = -(2 ^ (w - 1)) ∧ b = -1) then none else some (Int.tdiv a b)

/-- Signed `w`-bit C remainder: `a % b` on `wasm_s{w}_t` values. -/
def cremS (w : Nat) (a b : Int) : Option Int :=
  if b = 0 ∨ (a = -(2 ^ (w - 1)) ∧ b = -1) then none else some (Int.tmod a b)

/-- Unsigned C division: `a / b` on unsigned values. -/
def cdivU (a b : Nat) : Option Nat :=
  if b = 0 then none else some (a / b)

/-- Unsigned C remainder: `a % b` on unsigned values. -/
def cremU (a b : Nat) : Option Nat :=
  if b = 0 then none else some (a % b)

/-!  IEEE-754 comparisons on raw bit patterns, embedding the C `float` /
`double` comparison operators used by the `F32_*` / `F64_*` handlers: any
comparison involving a NaN is false except `!=`, which is true; otherwise
the operands compare by sign-magnitude order (with `-0 == +0`). -/

/-- Whether a 32-bit pattern is an IEEE-754 binary32 NaN. -/
def f32nan (x : Nat) : Bool :=
  decide ((x % U32) / 2 ^ 23 % 2 ^ 8 = 255) && decide ((x % U32) % 2 ^ 23 ≠ 0)

/-- Signed-magnitude ordering key of a binary32 pattern; both zeros map
to 0. -/
def f32key (x : Nat) : Int :=
  if (x % U32) / 2 ^ 31 = 1 then -(((x % U32) % 2 ^ 31 : Nat) : Int)
  else (((x % U32) % 2 ^ 31 : Nat) : Int)

/-- Whether a 64-bit pattern is an IEEE-754 binary64 NaN. -/
def f64nan (x : Nat) : Bool :=
  decide ((x % U64) / 2 ^ 52 % 2 ^ 11 = 2047) && decide ((x % U64) % 2 ^ 52 ≠ 0)

/-- Signed-magnitude ordering key of a binary64 pattern; both zeros map
to 0. -/
def f64key (x : Nat) : Int :=
  if (x % U64) / 2 ^ 63 = 1 then -(((x % U64) % 2 ^ 63 : Nat) : Int)
  else (((x % U64) % 2 ^ 63 : Nat) : Int)

/-- The comparison opcodes whose handlers in `wasmbox_eval_function` store
their result through `ARITHMETIC_OP2(_, s32, _)`, i.e. through the `s32`
member of the destination cell: `I64_EQ` … `I64_GE_U` and every `F32_*` /
`F64_*` comparison. -/
inductive Cmp32Kind where
  | i64Eq | i64Ne | i64LtS | i64LtU | i64GtS | i64GtU | i64LeS | i64LeU | i64GeS | i64GeU
  | f32Eq | f32Ne | f32Lt | f32Gt | f32Le | f32Ge
  | f64Eq | f64Ne | f64Lt | f64Gt | f64Le | f64Ge
deriving DecidableEq, Repr

/-- Boolean value of a comparison handler, reading the operand cells with
the argument type used by the corresponding `ARITHMETIC_OP2` instance
(`u64`, `s64`, `f32` or `f64`). -/
def cmpEval : Cmp32Kind → Nat → Nat → Bool
  | .i64Eq, x, y => decide (x % U64 = y % U64)
  | .i64Ne, x, y => decide (x % U64 ≠ y % U64)
  | .i64LtS, x, y => decide (toS64 x < toS64 y)
  | .i64LtU, x, y => decide (x % U64 < y % U64)
  | .i64GtS, x, y => decide (toS64 x > toS64 y)
  | .i64GtU, x, y => decide (x % U64 > y % U64)
  | .i64LeS, x, y => decide (toS64 x ≤ toS64 y)
  | .i64LeU, x, y => decide (x % U64 ≤ y % U64)
  | .i64GeS, x, y => decide (toS64 x ≥ toS64 y)
  | .i64GeU, x, y => decide (x % U64 ≥ y % U64)
  | .f32Eq, x, y => !f32nan x && !f32nan y && decide (f32key x = f32key y)
  | .f32Ne, x, y => f32nan x || f32nan y || decide (f32key x ≠ f32key y)
  | .f32Lt, x, y => !f32nan x && !f32nan y && decide (f32key x < f32key y)
  | .f32Gt, x, y => !f32nan x && !f32nan y && decide (f32key x > f32key y)
  | .f32Le, x, y => !f32nan x && !f32nan y && decide (f32key x ≤ f32key y)
  | .f32Ge, x, y => !f32nan x && !f32nan y && decide (f32key x ≥ f32key y)
  | .f64Eq, x, y => !f64nan x && !f64nan y && decide (f64key x = f64key y)
  | .f64Ne, x, y => f64nan x || f64nan y || decide (f64key x ≠ f64key y)
  | .f64Lt, x, y => !f64nan x && !f64nan y && decide (f64key x < f64key y)
  | .f64Gt, x, y => !f64nan x && !f64nan y && decide (f64key x > f64key y)
  | .f64Le, x, y => !f64nan x && !f64nan y && decide (f64key x ≤ f64key y)
  | .f64Ge, x, y => !f64nan x && !f64nan y && decide (f64key x ≥ f64key y)

/-!  The virtual machine of `src/src/interpreter.c`.

Code addresses (`wasmbox_code_t *` values) are indices into a code memory
`Nat → Instr`; value-stack cells (`wasmbox_value_t`, 64-bit) form a slab
`Int → Nat` indexed absolutely, and the current frame pointer (the `stack`
argument of `wasmbox_eval_function`) is a slab index.  Register operands
are signed (`wasm_s16_t`) offsets from the frame pointer. -/

/-- Immutable function record (`wasmbox_function_t`): entry address of its
code, return count of its type, optional export name (bytes). -/
structure Func where
  entry : Nat
  retSize : Nat
  name : Option (List Nat)
deriving DecidableEq, Repr

/-- One lowered instruction (`wasmbox_code_t`), restricted to the opcodes
the claims under verification exercise.  Each constructor names the
`CASE(...)` handler of `wasmbox_eval_function` it embeds. -/
inductive Instr where
  | nop
  | exit
  | ret
  | move (dst src : Int)
  | loadConstI64 (dst : Int) (v : Nat)
  | jump (target : Nat)
  | jumpIf (target : Nat) (cond : Int)
  | jumpTable (size : Nat) (labels : List Nat) (dflt : Nat) (idx : Int)
  | staticCall (base : Int) (fn : Func) (retCount : Nat)
  | memorySize (dst : Int)
  | memoryGrow (dst src : Int)
  | i32Clz (dst src : Int)
  | i32Ctz (dst src : Int)
  | i64Clz (dst src : Int)
  | i64Ctz (dst src : Int)
  | i32DivS (dst a b : Int)
  | i32DivU (dst a b : Int)
  | i32RemS (dst a b : Int)
  | i32RemU (dst a b : Int)
  | i64DivS (dst a b : Int)
  | i64DivU (dst a b : Int)
  | i64RemS (dst a b : Int)
  | i64RemU (dst a b : Int)
  | cmp32 (k : Cmp32Kind) (dst a b : Int)
deriving DecidableEq, Repr

/-- Interpreter state: code memory, value-stack slab, frame pointer
(`stack`), code pointer (`code`), and the module's memory fields
(`memory_block_size`, `memory_block_capacity`, and the byte size of the
currently allocated memory block). -/
structure VM where
  prog : Nat → Instr
  cells : Int → Nat
  fp : Nat
  pc : Nat
  memSize : Nat
  memCap : Nat
  memBytes : Nat

/-- Store a 64-bit value into a slab cell (a write through the `u64` or
`s64` union member). -/
def updCell (c : Int → Nat) (i : Int) (v : Nat) : Int → Nat :=
  fun j => if j = i then v % U64 else c j

/-- Store a 32-bit value into the low half of a slab cell (a write through
the `u32` or `s32` union member): the upper 32 bits keep their previous
contents. -/
def writeLow32 (c : Int → Nat) (i : Int) (v : Nat) : Int → Nat :=
  fun j => if j = i then (c i / U32 % U32) * U32 + v % U32 else c j

/-- Read the cell at a signed register offset from the frame pointer. -/
def rd (s : VM) (r : Int) : Nat := s.cells ((s.fp : Int) + r)

/-- Result of one dispatch round: `next` continues the loop, `done` models
the `return` of `wasmbox_eval_function` at `EXIT`, and `stuck` marks
C-undefined behaviour (no defined successor state). -/
inductive StepResult where
  | next (s : VM)
  | done (s : VM)
  | stuck

/-- One dispatch round of `wasmbox_eval_function`: execute the instruction
at the code pointer and fall through to the next dispatch. -/
def step (s : VM) : StepResult :=
  match s.prog s.pc with
  | .nop => .next { s with pc := s.pc + 1 }
  | .exit => .done s
  | .ret =>
    .next { s with pc := s.cells ((s.fp : Int) + 1), fp := s.cells (s.fp : Int) }
  | .move dst src =>
    .next { s with cells := updCell s.cells ((s.fp : Int) + dst) (rd s src), pc := s.pc + 1 }
  | .loadConstI64 dst v =>
    .next { s with cells := updCell s.cells ((s.fp : Int) + dst) v, pc := s.pc + 1 }
  | .jump t => .next { s with pc := t }
  | .jumpIf t cond =>
    if rd s cond % U32 ≠ 0 then .next { s with pc := t } else .next { s with pc := s.pc + 1 }
  | .jumpTable size labels dflt idx =>
    let i := rd s idx % U32
    if size < i then
      match labels.get? i with
      | some t => .next { s with pc := t }
      | none => .stuck
    else
      .next { s with pc := dflt }
  | .staticCall base fn retCount =>
    let nf : Int := (s.fp : Int) + base + (retCount : Int)
    if 0 ≤ nf then
      .next { s with
                cells := updCell (updCell s.cells nf s.fp) (nf + 1) (s.pc + 1),
                fp := nf.toNat, pc := fn.entry }
    else
      .stuck
  | .memorySize dst =>
    .next { s with cells := writeLow32 s.cells ((s.fp : Int) + dst) s.memSize, pc := s.pc + 1 }
  | .memoryGrow dst src =>
    let n := rd s src % U32
    let c := s.memSize
    if n = 0 ∨ (c + n) % U32 > s.memCap then
      .next { s with cells := writeLow32 s.cells ((s.fp : Int) + dst) c, pc := s.pc + 1 }
    else
      .next { s with
                cells := writeLow32 s.cells ((s.fp : Int) + dst) c, pc := s.pc + 1,
                memBytes := 65536 * n % U32, memSize := n }
  | .i32Clz dst src =>
    match wasmbox_runtime_clz32 (rd s src) with
    | none => .stuck
    | some r =>
      .next { s with cells := writeLow32 s.cells ((s.fp : Int) + dst) r, pc := s.pc + 1 }
  | .i32Ctz dst src =>
    match wasmbox_runtime_ctz32 (rd s src) with
    | none => .stuck
    | some r =>
      .next { s with cells := writeLow32 s.cells ((s.fp : Int) + dst) r, pc := s.pc + 1 }
  | .i64Clz dst src =>
    match wasmbox_runtime_clz64 (rd s src) with
    | none => .stuck
    | some r =>
      .next { s with cells := updCell s.cells ((s.fp : Int) + dst) r, pc := s.pc + 1 }
  | .i64Ctz dst src =>
    match wasmbox_runtime_ctz64 (rd s src) with
    | none => .stuck
    | some r =>
      .next { s with cells := updCell s.cells ((s.fp : Int) + dst) r, pc := s.pc + 1 }
  | .i32DivS dst a b =>
    match cdivS 32 (toS32 (rd s a)) (toS32 (rd s b)) with
    | none => .stuck
    | some q =>
      .next { s with cells := writeLow32 s.cells ((s.fp : Int) + dst) (ofS32 q), pc := s.pc + 1 }
  | .i32DivU dst a b =>
    match cdivU (rd s a % U32) (rd s b % U32) with
    | none => .stuck
    | some q =>
      .next { s with cells := writeLow32 s.cells ((s.fp : Int) + dst) q, pc := s.pc + 1 }
  | .i32RemS dst a b =>
    match cremS 32 (toS32 (rd s a)) (toS32 (rd s b)) with
    | none => .stuck
    | some q =>
      .next { s with cells := writeLow32 s.cells ((s.fp : Int) + dst) (ofS32 q), pc := s.pc + 1 }
  | .i32RemU dst a b =>
    match cremU (rd s a % U32) (rd s b % U32) with
    | none => .stuck
    | some q =>
      .next { s with cells := writeLow32 s.cells ((s.fp : Int) + dst) q, pc := s.pc + 1 }
  | .i64DivS dst a b =>
    match cdivS 64 (toS64 (rd s a)) (toS64 (rd s b)) with
    | none => .stuck
    | some q =>
      .next { s with cells := updCell s.cells ((s.fp : Int) + dst) (ofS64 q), pc := s.pc + 1 }
  | .i64DivU dst a b =>
    match cdivU (rd s a % U64) (rd s b % U64) with
    | none => .stuck
    | some q =>
      .next { s with cells := updCell s.cells ((s.fp : Int) + dst) q, pc := s.pc + 1 }
  | .i64RemS dst a b =>
    match cremS 64 (toS64 (rd s a)) (toS64 (rd s b)) with
    | none => .stuck
    | some q =>
      .next { s with cells := updCell s.cells ((s.fp : Int) + dst) (ofS64 q), pc := s.pc + 1 }
  | .i64RemU dst a b =>
    match cremU (rd s a % U64) (rd s b % U64) with
    | none => .stuck
    | some q =>
      .next { s with cells := updCell s.cells ((s.fp : Int) + dst) q, pc := s.pc + 1 }
  | .cmp32 k dst a b =>
    let r : Nat := if cmpEval k (rd s a) (rd s b) then 1 else 0
    .next { s with cells := writeLow32 s.cells ((s.fp : Int) + dst) r, pc := s.pc + 1 }

/-- Run the dispatch loop for at most `fuel` rounds, returning the state at
which `wasmbox_eval_function` returns (an `EXIT`), or `none` on fuel
exhaustion or undefined behaviour. -/
def run : Nat → VM → Option VM
  | 0, _ => none
  | fuel + 1, s =>
    match step s with
    | .done t => some t
    | .next t => run fuel t
    | .stuck => none

/-!  Module evaluation, from `wasmbox_eval_module` and
`wasmbox_module_find_entrypoint` in `src/src/interpreter.c`. -/

/-- Byte string of the exported entry function name, `_start`. -/
def startName : List Nat := [0x5F, 0x73, 0x74, 0x61, 0x72, 0x74]

/-- Embedding of `wasmbox_module_find_entrypoint`: first function whose
name is present, has length 6 and spells `_start`. -/
def wasmbox_module_find_entrypoint (fs : List Func) : Option Func :=
  fs.find? (fun f => decide (f.name = some startName))

/-- Module container (`wasmbox_module_t`) restricted to the fields the
claims exercise; `sharedExit` is the address of `shared_code[1]`, which
holds the `EXIT` instruction. -/
structure Module where
  prog : Nat → Instr
  functions : List Func
  sharedExit : Nat
  memSize : Nat
  memCap : Nat
  memBytes : Nat

/-- Frame setup of `wasmbox_eval_module`: locate `_start`, point the callee
frame at `stack + return_size`, store that frame pointer in link slot 0 and
the address of the shared `EXIT` instruction in link slot 1. -/
def evalModuleVM (m : Module) (cells0 : Int → Nat) : Option VM :=
  match wasmbox_module_find_entrypoint m.functions with
  | none => none
  | some f =>
    let fp := f.retSize
    some { prog := m.prog,
           cells := updCell (updCell cells0 (fp : Int) fp) ((fp : Int) + 1) m.sharedExit,
           fp := fp, pc := f.entry,
           memSize := m.memSize, memCap := m.memCap, memBytes := m.memBytes }

/-- Embedding of `wasmbox_eval_module`: set up the `_start` frame and run
`wasmbox_eval_function`; returns the final slab on success. -/
def wasmbox_eval_module (m : Module) (cells0 : Int → Nat) (fuel : Nat) : Option (Int → Nat) :=
  match evalModuleVM m cells0 with
  | none => none
  | some s =>
    match run fuel s with
    | none => none
    | some t => some t.cells

/-!  Module-header parsing, from `src/src/input-stream.c` and the
`parse_magic` / `parse_version` / `parse_module` functions of
`src/src/wasmbox.c`. -/

/-- Input byte stream (`wasmbox_input_stream_t`): backing bytes and the
current index; the stream length is the length of the data. -/
structure IStream where
  data : List Nat
  index : Nat
deriving DecidableEq, Repr

/-- Embedding of `wasmbox_input_stream_read_u32`: if fewer than four bytes
remain, yield `(wasm_u32_t) -1` without advancing; otherwise read four
bytes through a `wasm_u32_t` pointer cast, which on the little-endian host
produces the little-endian value, and advance by four. -/
def wasmbox_input_stream_read_u32 (s : IStream) : Nat × IStream :=
  if s.data.length < s.index + 4 then (U32 - 1, s)
  else
    (s.data.getD s.index 0 % 256
       + 256 * (s.data.getD (s.index + 1) 0 % 256)
       + 65536 * (s.data.getD (s.index + 2) 0 % 256)
       + 16777216 * (s.data.getD (s.index + 3) 0 % 256),
     { s with index := s.index + 4 })

/-- Embedding of `parse_magic`: read a u32 and compare it with the
constant `0x0061736d`; true exactly on equality. -/
def parse_magic (s : IStream) : Bool × IStream :=
  let p := wasmbox_input_stream_read_u32 s
  (decide (p.1 = 0x0061736d), p.2)

/-- Embedding of `parse_version`: read a u32 and compare it with the
constant `0x01000000`; true exactly on equality. -/
def parse_version (s : IStream) : Bool × IStream :=
  let p := wasmbox_input_stream_read_u32 s
  (decide (p.1 = 0x01000000), p.2)

/-- Header phase of `parse_module`: return `-1` (here `none`) when
`parse_magic` is nonzero, then return `-1` when `parse_version` is nonzero,
and otherwise fall through to the section loop with the advanced stream. -/
def parse_module_header (s : IStream) : Option IStream :=
  let m := parse_magic s
  if m.1 then none
  else
    let v := parse_version m.2
    if v.1 then none else some v.2

/-!  Translator state and the two decoders cited by the return-lowering
claim, from `src/src/wasmbox.c`. -/

/-- Function being translated: its emitted instruction list
(`func->code` / `code_size`) and the operand-stack cursor
(`func->stack_top`, a `wasm_s16_t`). -/
structure MFunc where
  code : List Instr
  stackTop : Int
deriving DecidableEq, Repr

/-- Embedding of `wasmbox_code_add_move (func, from, to)`: append a `MOVE`
whose `op0.reg` (destination) is `to` and whose `op1.reg` (source) is
`from`; `stack_top` is not touched. -/
def wasmbox_code_add_move (f : MFunc) (srcReg dstReg : Int) : MFunc :=
  { f with code := f.code ++ [Instr.move dstReg srcReg] }

/-- Embedding of `decode_block_end`, the decoder registered for the `end`
opcode `0x0B`: emit `MOVE (stack_top - 1) -> -1` followed by `RETURN`,
unconditionally. -/
def decode_block_end (f : MFunc) : MFunc :=
  let f1 := wasmbox_code_add_move f (f.stackTop - 1) (-1)
  { f1 with code := f1.code ++ [Instr.ret] }

/-- Embedding of `decode_return`, the decoder registered for the `return`
opcode `0x0F`: it prints the mnemonic and returns 0 without appending any
instruction or touching the translation state. -/
def decode_return (f : MFunc) : MFunc := f

/-!  Concrete fixtures used to evaluate the embedded code at specific
inputs. -/

/-- Successor state of one dispatch round, as data (`none` when the round
does not produce a next state). -/
def stepNext (s : VM) : Option VM :=
  match step s with
  | .next t => some t
  | _ => none

/-- Whether one dispatch round runs into C-undefined behaviour. -/
def stepStuck (s : VM) : Bool :=
  match step s with
  | .stuck => true
  | _ => false

/-- Machine about to execute `MEMORY_GROW` with destination register 2,
operand register 3 holding `n`, current page count `c` and capacity
`cap`. -/
def growState (c cap n : Nat) : VM :=
  { prog := fun _ => Instr.memoryGrow 2 3,
    cells := fun j => if j = 3 then n else 0,
    fp := 0, pc := 0, memSize := c, memCap := cap, memBytes := 65536 * c }

/-- Machine about to execute `JUMP_TABLE` with a table of size 2 whose
labels are addresses 100 and 200, default address 300, and index register 2
holding `i`. -/
def jtState (i : Nat) : VM :=
  { prog := fun _ => Instr.jumpTable 2 [100, 200] 300 2,
    cells := fun j => if j = 2 then i else 0,
    fp := 0, pc := 0, memSize := 0, memCap := 0, memBytes := 0 }

/-- The valid eight-byte module header: magic `\0asm` then little-endian
version 1. -/
def goodHeader : List Nat := [0x00, 0x61, 0x73, 0x6D, 0x01, 0x00, 0x00, 0x00]

/-- An invalid header: eight `0xFF` bytes. -/
def badHeader : List Nat := [0xFF, 0xFF, 0xFF, 0xFF, 0xFF, 0xFF, 0xFF, 0xFF]

/-- An invalid header whose first four bytes are the magic spelled in the
byte order that the mis-compared constant expects. -/
def revMagicHeader : List Nat := [0x6D, 0x73, 0x61, 0x00, 0x00, 0x00, 0x00, 0x01]

/-!  Theorems.  Each claim of the specification is settled by exactly one
theorem below (plus a witness where the theorem carries hypotheses). -/

/-- C1.  The claim says `memory.grow(n)` with `c + n <= cap` allocates a
block of `c + n` pages and sets the page count to `c + n`, so that
`memory.size` is non-decreasing.  On the code, a successful grow from page
count 2 with operand 3 (capacity 10) returns the previous size 2 but sets
the page count to 3 — the operand, not the sum — and allocates a 3-page
block; and a grow from page count 5 with operand 1 shrinks the size to 1,
so `memory.size` can decrease.  The failure branches (`n = 0` or
`c + n > cap`) do return the unchanged current size. -/
theorem memory_grow_replaces_page_count :
    ((stepNext (growState 2 10 3)).map (fun t => (t.cells 2 % U32, t.memSize, t.memBytes))
        = some (2, 3, 65536 * 3)
      ∧ (stepNext (growState 2 10 3)).map (fun t => t.memSize) ≠ some (2 + 3))
    ∧ ((stepNext (growState 5 10 1)).map (fun t => (t.cells 2 % U32, t.memSize)) = some (5, 1)
      ∧ (growState 5 10 1).memSize = 5 ∧ (1 : Nat) < 5)
    ∧ ((stepNext (growState 2 10 0)).map (fun t => (t.cells 2 % U32, t.memSize)) = some (2, 2)
      ∧ (stepNext (growState 2 10 9)).map (fun t => (t.cells 2 % U32, t.memSize)) = some (2, 2)) := by
  decide

/-- C2.  The claim says `JUMP_TABLE` transfers control to `labels[i]`
exactly when `i < size` and to the default otherwise.  On the code the
bounds check is inverted (`table->size < index` selects the table entry):
with a table of size 2 (labels at 100 and 200, default 300), the in-bounds
indices 0 and 1 jump to the default 300 instead of `labels[0] = 100` and
`labels[1] = 200`, and the out-of-bounds index 3 reads `labels[3]` past the
end of the label array (undefined behaviour) instead of taking the
default. -/
theorem jump_table_bounds_check_inverted :
    (stepNext (jtState 0)).map (fun t => t.pc) = some 300
    ∧ (stepNext (jtState 1)).map (fun t => t.pc) = some 300
    ∧ (stepNext (jtState 2)).map (fun t => t.pc) = some 300
    ∧ stepStuck (jtState 3) = true
    ∧ (300 : Nat) ≠ 100 ∧ (300 : Nat) ≠ 200 := by
  decide

/-- C3.  The claim says module loading proceeds past the header check
exactly for inputs starting with `\0asm` and little-endian version 1, and
that every other input is rejected before any section is parsed.  On the
code, `parse_module` returns the error when `parse_magic` returns
*nonzero*, i.e. when the comparison succeeds, and `read_u32` reads the
bytes little-endian while the constants `0x0061736d` / `0x01000000` spell
the bytes big-endian: the valid header passes only because the two
mistakes cancel, an all-`0xFF` header also passes the check and reaches
the section loop, and the byte-reversed magic is the input that gets
rejected with the invalid-magic error. -/
theorem parse_module_header_check_inverted :
    parse_module_header ⟨goodHeader, 0⟩ = some ⟨goodHeader, 8⟩
    ∧ parse_module_header ⟨badHeader, 0⟩ = some ⟨badHeader, 8⟩
    ∧ parse_module_header ⟨revMagicHeader, 0⟩ = none
    ∧ badHeader ≠ goodHeader := by
  decide

/-- C6.  The decoders reproduce the three known vectors together with the
exact cursor advance, and the unsigned decoder also inverts the standard
encoder on sample 64-bit values, but the signed decoder does not invert
the standard signed encoder on all 64-bit integers: in the sign-extension
step `result |= (~0 << shift)` the `~0` has type `int` (32 bits), so for
five-to-nine-byte encodings (`shift` between 35 and 63) the extension
contributes nothing and the decoded value keeps the wrong sign.  The
standard five-byte encoding of `-2^28` decodes to `0x7F0000000` instead
of `-2^28`. -/
theorem leb128_vectors_and_sign_extension_bug :
    parse_unsigned_leb128 [0xE5, 0x8E, 0x26] 0 3 = some (624485, 3)
    ∧ parse_signed_leb128 [0xC0, 0xBB, 0x78] 0 3 = some (-123456, 3)
    ∧ parse_signed_leb128 [0xAF, 0xFD, 0xB6, 0xF5, 0x0D] 0 5 = some (0xDEADBEAF, 5)
    ∧ parse_unsigned_leb128 [0xAF, 0xFD, 0xB6, 0xF5, 0x0D] 0 5 = some (0xDEADBEAF, 5)
    ∧ ulebEncode 624485 = [0xE5, 0x8E, 0x26]
    ∧ slebEncode (-123456) = [0xC0, 0xBB, 0x78]
    ∧ parse_unsigned_leb128 (ulebEncode (2 ^ 64 - 1)) 0 10 = some (2 ^ 64 - 1, 10)
    ∧ parse_signed_leb128 (slebEncode (-(2 ^ 63))) 0 10 = some (-(2 ^ 63), 10)
    ∧ slebEncode (-(2 ^ 28)) = [0x80, 0x80, 0x80, 0x80, 0x7F]
    ∧ parse_signed_leb128 (slebEncode (-(2 ^ 28))) 0 5 = some (0x7F0000000, 5)
    ∧ (0x7F0000000 : Int) ≠ -(2 ^ 28) := by
  decide

/-- C8 counterexample.  The claim says lowering the wasm `return` opcode
(byte `0x0F`) appends a `MOVE` of the operand-stack top to register `-1`
followed by `RETURN`.  On the code, `decode_return` — the decoder
registered for `0x0F` — appends nothing at all: starting from an empty
code list with `stack_top = 3` the translation state is unchanged and in
particular does not end with the claimed pair. -/
theorem decode_return_appends_nothing :
    decode_return ⟨[], 3⟩ = (⟨[], 3⟩ : MFunc)
    ∧ ¬ (decode_return ⟨[], 3⟩).code = [Instr.move (-1) 2, Instr.ret] := by
  decide

/-- C8 amended.  The `MOVE(top-of-stack, -1)` / `RETURN` pair is emitted
when the translator lowers the block-terminator opcode `end` (byte `0x0B`)
through `decode_block_end` — unconditionally, whatever the function's
return count — while lowering `return` (byte `0x0F`) through
`decode_return` appends no instruction. -/
theorem block_end_emits_move_and_return (f : MFunc) :
    decode_return f = f
    ∧ (decode_block_end f).code = f.code ++ [Instr.move (-1) (f.stackTop - 1), Instr.ret]
    ∧ (decode_block_end f).stackTop = f.stackTop := by
  refine ⟨rfl, ?_, rfl⟩
  simp [decode_block_end, wasmbox_code_add_move]

/-!  Helper lemmas about cell writes. -/

theorem updCell_self (c : Int → Nat) (i : Int) (v : Nat) : updCell c i v i = v % U64 := by
  simp [updCell]

theorem updCell_other (c : Int → Nat) (i j : Int) (v : Nat) (h : j ≠ i) :
    updCell c i v j = c j := by
  simp [updCell, h]

theorem writeLow32_self (c : Int → Nat) (i : Int) (v : Nat) :
    writeLow32 c i v i = c i / U32 % U32 * U32 + v % U32 := by
  simp [writeLow32]

theorem writeLow32_self_mod (c : Int → Nat) (i : Int) (v : Nat) :
    writeLow32 c i v i % U32 = v % U32 := by
  rw [writeLow32_self]
  simp only [U32]
  omega

theorem writeLow32_self_div (c : Int → Nat) (i : Int) (v : Nat) :
    writeLow32 c i v i / U32 = c i / U32 % U32 := by
  rw [writeLow32_self]
  simp only [U32]
  omega

theorem writeLow32_other (c : Int → Nat) (i j : Int) (v : Nat) (h : j ≠ i) :
    writeLow32 c i v j = c j := by
  simp [writeLow32, h]

/-- C4.  A `STATIC_CALL` at frame pointer `S` with operands
`(base, fn, R)` makes the callee frame pointer `S + base + R`, stores the
caller frame pointer `S` in link slot 0 and the address of the following
instruction in link slot 1, and jumps to the callee's code; and a `RETURN`
reached with those two link slots intact restores frame pointer `S` and
resumes at the instruction after the `STATIC_CALL`. -/
theorem static_call_return_balance (s : VM) (base : Int) (fn : Func) (R : Nat)
    (hc : s.prog s.pc = Instr.staticCall base fn R)
    (hnf : 0 ≤ (s.fp : Int) + base + (R : Int))
    (hfp : s.fp < U64) (hpc : s.pc + 1 < U64) :
    ∃ s1, step s = StepResult.next s1
      ∧ (s1.fp : Int) = (s.fp : Int) + base + (R : Int)
      ∧ s1.cells ((s.fp : Int) + base + (R : Int)) = s.fp
      ∧ s1.cells ((s.fp : Int) + base + (R : Int) + 1) = s.pc + 1
      ∧ s1.pc = fn.entry
      ∧ ∀ t : VM, t.prog t.pc = Instr.ret →
          (t.fp : Int) = (s.fp : Int) + base + (R : Int) →
          t.cells (t.fp : Int) = s.fp →
          t.cells ((t.fp : Int) + 1) = s.pc + 1 →
          ∃ t1, step t = StepResult.next t1 ∧ t1.fp = s.fp ∧ t1.pc = s.pc + 1 := by
  refine ⟨{ s with
      cells := updCell (updCell s.cells ((s.fp : Int) + base + (R : Int)) s.fp)
        ((s.fp : Int) + base + (R : Int) + 1) (s.pc + 1),
      fp := ((s.fp : Int) + base + (R : Int)).toNat, pc := fn.entry }, ?_, ?_, ?_, ?_, rfl, ?_⟩
  · simp [step, hc, hnf]
  · exact Int.toNat_of_nonneg hnf
  · show updCell (updCell s.cells ((s.fp : Int) + base + (R : Int)) s.fp)
        ((s.fp : Int) + base + (R : Int) + 1) (s.pc + 1) ((s.fp : Int) + base + (R : Int)) = s.fp
    rw [updCell_other _ _ _ _ (by omega), updCell_self, Nat.mod_eq_of_lt hfp]
  · show updCell (updCell s.cells ((s.fp : Int) + base + (R : Int)) s.fp)
        ((s.fp : Int) + base + (R : Int) + 1) (s.pc + 1) ((s.fp : Int) + base + (R : Int) + 1)
        = s.pc + 1
    rw [updCell_self, Nat.mod_eq_of_lt hpc]
  · intro t h1 h2 h3 h4
    exact ⟨{ t with pc := t.cells ((t.fp : Int) + 1), fp := t.cells (t.fp : Int) },
      by simp [step, h1], h3, h4⟩

/-- Demonstration machine for the call/return balance: a `STATIC_CALL` at
address 0 (base 2, one return) to a function whose body at address 5 is a
single `RETURN`. -/
def callDemo : VM :=
  { prog := fun pc => if pc = 0 then Instr.staticCall 2 ⟨5, 1, none⟩ 1
            else if pc = 5 then Instr.ret else Instr.exit,
    cells := fun _ => 0, fp := 0, pc := 0, memSize := 0, memCap := 0, memBytes := 0 }

/-- Witness for C4: the balance theorem applied to the demonstration
machine. -/
theorem static_call_return_balance_witness :
    ∃ s1, step callDemo = StepResult.next s1
      ∧ (s1.fp : Int) = (callDemo.fp : Int) + 2 + (1 : Nat)
      ∧ s1.cells ((callDemo.fp : Int) + 2 + (1 : Nat)) = callDemo.fp
      ∧ s1.pc = 5 := by
  obtain ⟨s1, h1, h2, h3, _, h5, _⟩ :=
    static_call_return_balance callDemo 2 ⟨5, 1, none⟩ 1 rfl (by decide) (by decide) (by decide)
  exact ⟨s1, h1, h2, h3, h5⟩

/-- C5.  Every integer division or remainder opcode executed with a zero
divisor, and `i32.div_s` / `i64.div_s` executed with the minimum signed
value and divisor `-1`, leaves the interpreter without a defined successor
state: the handlers apply the native C `/` and `%` whose behaviour on
these operands is undefined, so execution terminates at the fault without
a result being written. -/
theorem integer_div_rem_undefined_cases_trap :
    (∀ s dst a b, s.prog s.pc = Instr.i32DivS dst a b →
      toS32 (s.cells ((s.fp : Int) + b)) = 0 → step s = StepResult.stuck)
    ∧ (∀ s dst a b, s.prog s.pc = Instr.i32DivU dst a b →
      s.cells ((s.fp : Int) + b) % U32 = 0 → step s = StepResult.stuck)
    ∧ (∀ s dst a b, s.prog s.pc = Instr.i32RemS dst a b →
      toS32 (s.cells ((s.fp : Int) + b)) = 0 → step s = StepResult.stuck)
    ∧ (∀ s dst a b, s.prog s.pc = Instr.i32RemU dst a b →
      s.cells ((s.fp : Int) + b) % U32 = 0 → step s = StepResult.stuck)
    ∧ (∀ s dst a b, s.prog s.pc = Instr.i64DivS dst a b →
      toS64 (s.cells ((s.fp : Int) + b)) = 0 → step s = StepResult.stuck)
    ∧ (∀ s dst a b, s.prog s.pc = Instr.i64DivU dst a b →
      s.cells ((s.fp : Int) + b) % U64 = 0 → step s = StepResult.stuck)
    ∧ (∀ s dst a b, s.prog s.pc = Instr.i64RemS dst a b →
      toS64 (s.cells ((s.fp : Int) + b)) = 0 → step s = StepResult.stuck)
    ∧ (∀ s dst a b, s.prog s.pc = Instr.i64RemU dst a b →
      s.cells ((s.fp : Int) + b) % U64 = 0 → step s = StepResult.stuck)
    ∧ (∀ s dst a b, s.prog s.pc = Instr.i32DivS dst a b →
      toS32 (s.cells ((s.fp : Int) + a)) = -(2 ^ 31) →
      toS32 (s.cells ((s.fp : Int) + b)) = -1 → step s = StepResult.stuck)
    ∧ (∀ s dst a b, s.prog s.pc = Instr.i64DivS dst a b →
      toS64 (s.cells ((s.fp : Int) + a)) = -(2 ^ 63) →
      toS64 (s.cells ((s.fp : Int) + b)) = -1 → step s = StepResult.stuck) := by
  refine ⟨?_, ?_, ?_, ?_, ?_, ?_, ?_, ?_, ?_, ?_⟩
  · intro s dst a b h hz
    simp [step, h, rd, hz, cdivS]
  · intro s dst a b h hz
    simp [step, h, rd, hz, cdivU]
  · intro s dst a b h hz
    simp [step, h, rd, hz, cremS]
  · intro s dst a b h hz
    simp [step, h, rd, hz, cremU]
  · intro s dst a b h hz
    simp [step, h, rd, hz, cdivS]
  · intro s dst a b h hz
    simp [step, h, rd, hz, cdivU]
  · intro s dst a b h hz
    simp [step, h, rd, hz, cremS]
  · intro s dst a b h hz
    simp [step, h, rd, hz, cremU]
  · intro s dst a b h ha hb
    norm_num [step, h, rd, ha, hb, cdivS]
  · intro s dst a b h ha hb
    norm_num [step, h, rd, ha, hb, cdivS]

/-- Machine about to execute a division-family instruction with every cell
zero (so every operand, in particular the divisor, is zero). -/
def divDemo (i : Instr) : VM :=
  { prog := fun _ => i, cells := fun _ => 0, fp := 0, pc := 0,
    memSize := 0, memCap := 0, memBytes := 0 }

/-- Machine about to execute `i32.div_s` with operands `INT32_MIN`
and `-1`. -/
def divMin32Demo : VM :=
  { prog := fun _ => Instr.i32DivS 3 1 2,
    cells := fun j => if j = 1 then 0x80000000 else if j = 2 then 0xFFFFFFFF else 0,
    fp := 0, pc := 0, memSize := 0, memCap := 0, memBytes := 0 }

/-- Machine about to execute `i64.div_s` with operands `INT64_MIN`
and `-1`. -/
def divMin64Demo : VM :=
  { prog := fun _ => Instr.i64DivS 3 1 2,
    cells := fun j => if j = 1 then 2 ^ 63 else if j = 2 then 2 ^ 64 - 1 else 0,
    fp := 0, pc := 0, memSize := 0, memCap := 0, memBytes := 0 }

/-- Witness for C5: all ten undefined division cases evaluated on concrete
machines. -/
theorem integer_div_rem_undefined_cases_trap_witness :
    step (divDemo (Instr.i32DivS 3 1 2)) = StepResult.stuck
    ∧ step (divDemo (Instr.i32DivU 3 1 2)) = StepResult.stuck
    ∧ step (divDemo (Instr.i32RemS 3 1 2)) = StepResult.stuck
    ∧ step (divDemo (Instr.i32RemU 3 1 2)) = StepResult.stuck
    ∧ step (divDemo (Instr.i64DivS 3 1 2)) = StepResult.stuck
    ∧ step (divDemo (Instr.i64DivU 3 1 2)) = StepResult.stuck
    ∧ step (divDemo (Instr.i64RemS 3 1 2)) = StepResult.stuck
    ∧ step (divDemo (Instr.i64RemU 3 1 2)) = StepResult.stuck
    ∧ step divMin32Demo = StepResult.stuck
    ∧ step divMin64Demo = StepResult.stuck := by
  obtain ⟨h1, h2, h3, h4, h5, h6, h7, h8, h9, h10⟩ := integer_div_rem_undefined_cases_trap
  exact ⟨h1 _ 3 1 2 rfl (by decide), h2 _ 3 1 2 rfl (by decide), h3 _ 3 1 2 rfl (by decide),
    h4 _ 3 1 2 rfl (by decide), h5 _ 3 1 2 rfl (by decide), h6 _ 3 1 2 rfl (by decide),
    h7 _ 3 1 2 rfl (by decide), h8 _ 3 1 2 rfl (by decide),
    h9 _ 3 1 2 rfl (by decide) (by decide), h10 _ 3 1 2 rfl (by decide) (by decide)⟩

/-- Code of a `_start` function with two return values: it writes 11 to
return offset `-1` (the first return slot per the frame layout and the
translator's `MOVE(top, -1)` lowering) and 22 to return offset `-2` (the
second), then returns; address 100 holds the shared `EXIT`. -/
def multiRetProg : Nat → Instr := fun pc =>
  if pc = 0 then Instr.loadConstI64 2 11
  else if pc = 1 then Instr.move (-1) 2
  else if pc = 2 then Instr.loadConstI64 2 22
  else if pc = 3 then Instr.move (-2) 2
  else if pc = 4 then Instr.ret
  else Instr.exit

/-- Module exporting the two-return `_start` above. -/
def multiRetModule : Module :=
  { prog := multiRetProg, functions := [⟨0, 2, some startName⟩], sharedExit := 100,
    memSize := 0, memCap := 0, memBytes := 0 }

/-- C7 counterexample.  The claim puts the first (index-0) return value in
`stack[0]`.  Running the two-return module: the first return value 11
(written to offset `-1`) materializes in slot 1, and slot 0 holds the
second return value 22 — so `stack[0]` is not the first return value. -/
theorem eval_module_first_return_not_in_slot_zero :
    (wasmbox_eval_module multiRetModule (fun _ => 0) 10).map (fun c => (c 0, c 1))
      = some (22, 11)
    ∧ (22 : Nat) ≠ 11 := by
  decide

/-- C7 amended.  `wasmbox_eval_module` places the `_start` frame pointer at
slab index `R` (the return count), so the `R` return values do occupy slots
`0 … R-1`, but in reverse order: the return value written to offset
`-(1+j)` lands in slot `R-1-j`; in particular the first (index-0) return
value lands in slot `R-1`, which is slot 0 exactly when `R = 1`. -/
theorem eval_module_return_slot_layout (m : Module) (cells0 : Int → Nat) (f : Func)
    (hf : wasmbox_module_find_entrypoint m.functions = some f) :
    ∃ s, evalModuleVM m cells0 = some s ∧ s.fp = f.retSize
      ∧ ∀ j : Nat, j < f.retSize →
          (s.fp : Int) - (1 + (j : Int)) = ((f.retSize - 1 - j : Nat) : Int) := by
  simp only [evalModuleVM, hf]
  refine ⟨_, rfl, rfl, fun j hj => ?_⟩
  show ((f.retSize : Nat) : Int) - (1 + (j : Int)) = ((f.retSize - 1 - j : Nat) : Int)
  omega

/-- Witness for C7: the frame-layout theorem applied to the concrete
two-return module. -/
theorem eval_module_return_slot_layout_witness :
    ∃ s, evalModuleVM multiRetModule (fun _ => 0) = some s ∧ s.fp = 2
      ∧ ∀ j : Nat, j < 2 → (s.fp : Int) - (1 + (j : Int)) = ((2 - 1 - j : Nat) : Int) := by
  have h := eval_module_return_slot_layout multiRetModule (fun _ => 0) ⟨0, 2, some startName⟩
    (by decide)
  exact h

/-!  Bounds for the bit-counting helpers. -/

theorem ctzF_le (fuel : Nat) : ∀ v : Nat, ctzF fuel v ≤ fuel := by
  induction fuel with
  | zero => intro v; simp [ctzF]
  | succ n ih =>
    intro v
    simp only [ctzF]
    split
    · omega
    · have := ih (v / 2)
      omega

/-- C9.  For nonzero operands the four count-zero opcodes write the number
of leading (`32 - bitlen`, `64 - bitlen`) or trailing (`ctzF`) zero bits of
the operand into the destination; for a zero operand the handlers call
`__builtin_clz/ctz(l)`, whose result is undefined, so no result — in
particular not the claimed width 32 or 64 — is written and execution has no
defined successor. -/
theorem clz_ctz_nonzero_correct_zero_undefined :
    (∀ s dst src, s.prog s.pc = Instr.i32Clz dst src →
      s.cells ((s.fp : Int) + src) % U32 ≠ 0 →
      ∃ t, step s = StepResult.next t ∧ t.pc = s.pc + 1
        ∧ t.cells ((s.fp : Int) + dst) % U32
            = 32 - bitlen (s.cells ((s.fp : Int) + src) % U32))
    ∧ (∀ s dst src, s.prog s.pc = Instr.i32Clz dst src →
        s.cells ((s.fp : Int) + src) % U32 = 0 → step s = StepResult.stuck)
    ∧ (∀ s dst src, s.prog s.pc = Instr.i32Ctz dst src →
      s.cells ((s.fp : Int) + src) % U32 ≠ 0 →
      ∃ t, step s = StepResult.next t ∧ t.pc = s.pc + 1
        ∧ t.cells ((s.fp : Int) + dst) % U32
            = ctzF 32 (s.cells ((s.fp : Int) + src) % U32))
    ∧ (∀ s dst src, s.prog s.pc = Instr.i32Ctz dst src →
        s.cells ((s.fp : Int) + src) % U32 = 0 → step s = StepResult.stuck)
    ∧ (∀ s dst src, s.prog s.pc = Instr.i64Clz dst src →
      s.cells ((s.fp : Int) + src) % U64 ≠ 0 →
      ∃ t, step s = StepResult.next t ∧ t.pc = s.pc + 1
        ∧ t.cells ((s.fp : Int) + dst)
            = 64 - bitlen (s.cells ((s.fp : Int) + src) % U64))
    ∧ (∀ s dst src, s.prog s.pc = Instr.i64Clz dst src →
        s.cells ((s.fp : Int) + src) % U64 = 0 → step s = StepResult.stuck)
    ∧ (∀ s dst src, s.prog s.pc = Instr.i64Ctz dst src →
      s.cells ((s.fp : Int) + src) % U64 ≠ 0 →
      ∃ t, step s = StepResult.next t ∧ t.pc = s.pc + 1
        ∧ t.cells ((s.fp : Int) + dst)
            = ctzF 64 (s.cells ((s.fp : Int) + src) % U64))
    ∧ (∀ s dst src, s.prog s.pc = Instr.i64Ctz dst src →
        s.cells ((s.fp : Int) + src) % U64 = 0 → step s = StepResult.stuck) := by
  refine ⟨?_, ?_, ?_, ?_, ?_, ?_, ?_, ?_⟩
  · intro s dst src h hnz
    refine ⟨{ s with
        cells := writeLow32 s.cells ((s.fp : Int) + dst)
          (32 - bitlen (s.cells ((s.fp : Int) + src) % U32)),
        pc := s.pc + 1 }, ?_, rfl, ?_⟩
    · simp [step, h, rd, wasmbox_runtime_clz32, hnz]
    · show writeLow32 s.cells ((s.fp : Int) + dst)
          (32 - bitlen (s.cells ((s.fp : Int) + src) % U32)) ((s.fp : Int) + dst) % U32
          = 32 - bitlen (s.cells ((s.fp : Int) + src) % U32)
      rw [writeLow32_self_mod]
      exact Nat.mod_eq_of_lt (by simp only [U32]; omega)
  · intro s dst src h hz
    simp [step, h, rd, wasmbox_runtime_clz32, hz]
  · intro s dst src h hnz
    refine ⟨{ s with
        cells := writeLow32 s.cells ((s.fp : Int) + dst)
          (ctzF 32 (s.cells ((s.fp : Int) + src) % U32)),
        pc := s.pc + 1 }, ?_, rfl, ?_⟩
    · simp [step, h, rd, wasmbox_runtime_ctz32, hnz]
    · show writeLow32 s.cells ((s.fp : Int) + dst)
          (ctzF 32 (s.cells ((s.fp : Int) + src) % U32)) ((s.fp : Int) + dst) % U32
          = ctzF 32 (s.cells ((s.fp : Int) + src) % U32)
      rw [writeLow32_self_mod]
      exact Nat.mod_eq_of_lt (by
        have := ctzF_le 32 (s.cells ((s.fp : Int) + src) % U32)
        simp only [U32] at this ⊢
        omega)
  · intro s dst src h hz
    simp [step, h, rd, wasmbox_runtime_ctz32, hz]
  · intro s dst src h hnz
    refine ⟨{ s with
        cells := updCell s.cells ((s.fp : Int) + dst)
          (64 - bitlen (s.cells ((s.fp : Int) + src) % U64)),
        pc := s.pc + 1 }, ?_, rfl, ?_⟩
    · simp [step, h, rd, wasmbox_runtime_clz64, hnz]
    · show updCell s.cells ((s.fp : Int) + dst)
          (64 - bitlen (s.cells ((s.fp : Int) + src) % U64)) ((s.fp : Int) + dst)
          = 64 - bitlen (s.cells ((s.fp : Int) + src) % U64)
      rw [updCell_self]
      exact Nat.mod_eq_of_lt (by simp only [U64]; omega)
  · intro s dst src h hz
    simp [step, h, rd, wasmbox_runtime_clz64, hz]
  · intro s dst src h hnz
    refine ⟨{ s with
        cells := updCell s.cells ((s.fp : Int) + dst)
          (ctzF 64 (s.cells ((s.fp : Int) + src) % U64)),
        pc := s.pc + 1 }, ?_, rfl, ?_⟩
    · simp [step, h, rd, wasmbox_runtime_ctz64, hnz]
    · show updCell s.cells ((s.fp : Int) + dst)
          (ctzF 64 (s.cells ((s.fp : Int) + src) % U64)) ((s.fp : Int) + dst)
          = ctzF 64 (s.cells ((s.fp : Int) + src) % U64)
      rw [updCell_self]
      exact Nat.mod_eq_of_lt (by
        have := ctzF_le 64 (s.cells ((s.fp : Int) + src) % U64)
        simp only [U64] at this ⊢
        omega)
  · intro s dst src h hz
    simp [step, h, rd, wasmbox_runtime_ctz64, hz]

/-- Machine about to execute a count-zero instruction on source register 1
holding `v`, destination register 2. -/
def clzDemo (i : Instr) (v : Nat) : VM :=
  { prog := fun _ => i, cells := fun j => if j = 1 then v else 0, fp := 0, pc := 0,
    memSize := 0, memCap := 0, memBytes := 0 }

/-- Witness for C9: concrete evaluations — `clz32` of `0xFFFF` is 16,
`ctz32` of 8 is 3, `clz64` of 1 is 63, `ctz64` of `2^40` is 40, and each
opcode on a zero operand has no defined successor. -/
theorem clz_ctz_nonzero_correct_zero_undefined_witness :
    (∃ t, step (clzDemo (Instr.i32Clz 2 1) 0xFFFF) = StepResult.next t ∧ t.pc = 1
      ∧ t.cells 2 % U32 = 16)
    ∧ step (clzDemo (Instr.i32Clz 2 1) 0) = StepResult.stuck
    ∧ (∃ t, step (clzDemo (Instr.i32Ctz 2 1) 8) = StepResult.next t ∧ t.pc = 1
      ∧ t.cells 2 % U32 = 3)
    ∧ step (clzDemo (Instr.i32Ctz 2 1) 0) = StepResult.stuck
    ∧ (∃ t, step (clzDemo (Instr.i64Clz 2 1) 1) = StepResult.next t ∧ t.pc = 1
      ∧ t.cells 2 = 63)
    ∧ step (clzDemo (Instr.i64Clz 2 1) 0) = StepResult.stuck
    ∧ (∃ t, step (clzDemo (Instr.i64Ctz 2 1) (2 ^ 40)) = StepResult.next t ∧ t.pc = 1
      ∧ t.cells 2 = 40)
    ∧ step (clzDemo (Instr.i64Ctz 2 1) 0) = StepResult.stuck := by
  obtain ⟨h1, h2, h3, h4, h5, h6, h7, h8⟩ := clz_ctz_nonzero_correct_zero_undefined
  refine ⟨?_, h2 _ 2 1 rfl (by decide), ?_, h4 _ 2 1 rfl (by decide),
    ?_, h6 _ 2 1 rfl (by decide), ?_, h8 _ 2 1 rfl (by decide)⟩
  · obtain ⟨t, ht, hp, hc⟩ := h1 (clzDemo (Instr.i32Clz 2 1) 0xFFFF) 2 1 rfl (by decide)
    exact ⟨t, ht, hp, hc.trans (by decide)⟩
  · obtain ⟨t, ht, hp, hc⟩ := h3 (clzDemo (Instr.i32Ctz 2 1) 8) 2 1 rfl (by decide)
    exact ⟨t, ht, hp, hc.trans (by decide)⟩
  · obtain ⟨t, ht, hp, hc⟩ := h5 (clzDemo (Instr.i64Clz 2 1) 1) 2 1 rfl (by decide)
    exact ⟨t, ht, hp, hc.trans (by decide)⟩
  · obtain ⟨t, ht, hp, hc⟩ := h7 (clzDemo (Instr.i64Ctz 2 1) (2 ^ 40)) 2 1 rfl (by decide)
    exact ⟨t, ht, hp, hc.trans (by decide)⟩

/-- C10.  Every comparison handler that stores through
`ARITHMETIC_OP2(_, s32, _)` — the i64 comparisons `eq … ge_u` and all
f32/f64 comparisons — writes its 0/1 result into only the low 32 bits of
the destination cell: the upper 32 bits keep the value they previously
held (so a later 64-bit read of the slot can see stale high bits), no
other cell changes, and execution continues at the next instruction. -/
theorem cmp_writes_only_low32 (k : Cmp32Kind) (s : VM) (dst a b : Int)
    (h : s.prog s.pc = Instr.cmp32 k dst a b)
    (hcell : s.cells ((s.fp : Int) + dst) < U64) :
    ∃ t, step s = StepResult.next t
      ∧ t.pc = s.pc + 1 ∧ t.fp = s.fp
      ∧ t.cells ((s.fp : Int) + dst) / U32 = s.cells ((s.fp : Int) + dst) / U32
      ∧ (t.cells ((s.fp : Int) + dst) % U32 = 0 ∨ t.cells ((s.fp : Int) + dst) % U32 = 1)
      ∧ ∀ j : Int, j ≠ (s.fp : Int) + dst → t.cells j = s.cells j := by
  refine ⟨{ s with
      cells := writeLow32 s.cells ((s.fp : Int) + dst)
        (if cmpEval k (rd s a) (rd s b) then 1 else 0),
      pc := s.pc + 1 }, ?_, rfl, rfl, ?_, ?_, ?_⟩
  · simp [step, h]
  · show writeLow32 s.cells ((s.fp : Int) + dst)
        (if cmpEval k (rd s a) (rd s b) then 1 else 0) ((s.fp : Int) + dst) / U32
        = s.cells ((s.fp : Int) + dst) / U32
    rw [writeLow32_self_div]
    exact Nat.mod_eq_of_lt (by
      have h2 := hcell
      simp only [U64] at h2
      simp only [U32]
      omega)
  · show writeLow32 s.cells ((s.fp : Int) + dst)
        (if cmpEval k (rd s a) (rd s b) then 1 else 0) ((s.fp : Int) + dst) % U32 = 0
      ∨ writeLow32 s.cells ((s.fp : Int) + dst)
        (if cmpEval k (rd s a) (rd s b) then 1 else 0) ((s.fp : Int) + dst) % U32 = 1
    rw [writeLow32_self_mod]
    cases hb : cmpEval k (rd s a) (rd s b) <;> simp [hb, U32]
  · intro j hj
    exact writeLow32_other _ _ _ _ hj

/-- Machine about to execute `I64_EQ` on two cells holding 5, with the
destination cell pre-filled with the 64-bit pattern
`0xDEADBEEF00000007`. -/
def cmpDemo : VM :=
  { prog := fun _ => Instr.cmp32 Cmp32Kind.i64Eq 3 1 2,
    cells := fun j => if j = 3 then 0xDEADBEEF00000007 else 5,
    fp := 0, pc := 0, memSize := 0, memCap := 0, memBytes := 0 }

/-- Witness for C10: on the demonstration machine the `I64_EQ` result 1 is
written into the low half of cell 3 while the stale upper half
`0xDEADBEEF` survives, producing `0xDEADBEEF00000001`. -/
theorem cmp_writes_only_low32_witness :
    (∃ t, step cmpDemo = StepResult.next t
      ∧ t.pc = cmpDemo.pc + 1 ∧ t.fp = cmpDemo.fp
      ∧ t.cells ((cmpDemo.fp : Int) + 3) / U32 = cmpDemo.cells ((cmpDemo.fp : Int) + 3) / U32
      ∧ (t.cells ((cmpDemo.fp : Int) + 3) % U32 = 0 ∨ t.cells ((cmpDemo.fp : Int) + 3) % U32 = 1)
      ∧ ∀ j : Int, j ≠ (cmpDemo.fp : Int) + 3 → t.cells j = cmpDemo.cells j)
    ∧ (stepNext cmpDemo).map (fun t => t.cells 3) = some 0xDEADBEEF00000001 := by
  refine ⟨?_, by decide⟩
  exact cmp_writes_only_low32 Cmp32Kind.i64Eq cmpDemo 3 1 2 rfl (by decide)

end Wasmbox
